import Mathlib

/-!
Shallow embedding of the anomaly-detection and calendar-gating engine of the
FinancialMarketWatchdog repository, together with theorems settling the frozen
claims about it.

Source files embedded:
* `src/monitors/lof_monitor.py`   — limit-status and speed-surge trackers
* `src/utils/data_parser.py`      — snapshot normalisation helpers
* `src/core/trading_calendar.py`  — trading-calendar service
* `src/data_crawler/crawlers/futures_crawler.py` — rollover signal

Numeric cell values are modelled as rationals (`ℚ`): pandas floats are handled
by the source only through comparisons, subtraction, division and scaling, all
of which the claims use at points far from representation error.  A pandas NaN
is modelled as `Option.none`.  Python dictionaries are modelled as association
lists where an assignment conses the new binding in front (the lookup ignores
shadowed bindings, matching dictionary semantics).
-/

namespace Watchdog

/-! ### Dates (`datetime.date`, proleptic Gregorian)

`PyDate` mirrors `datetime.date`; `pyWeekday` mirrors `date.weekday()`
(Monday = 0 ... Sunday = 6) via the rata-die day count: day 1 is
0001-01-01, a Monday in the proleptic Gregorian calendar. -/

structure PyDate where
  year : Nat
  month : Nat
  day : Nat
deriving DecidableEq, Repr

def isLeapYear (y : Nat) : Bool :=
  (y % 4 == 0 && y % 100 != 0) || y % 400 == 0

def monthLength (y m : Nat) : Nat :=
  if m = 2 then (if isLeapYear y then 29 else 28)
  else if m = 4 ∨ m = 6 ∨ m = 9 ∨ m = 11 then 30
  else 31

def daysBeforeMonth (y m : Nat) : Nat :=
  (List.range (m - 1)).foldl (fun acc i => acc + monthLength y (i + 1)) 0

def rataDie (d : PyDate) : Nat :=
  365 * (d.year - 1) + (d.year - 1) / 4 - (d.year - 1) / 100 + (d.year - 1) / 400
    + daysBeforeMonth d.year d.month + d.day

/-- `datetime.date.weekday()`: Monday = 0, ..., Sunday = 6. -/
def pyWeekday (d : PyDate) : Nat :=
  (rataDie d + 6) % 7

/-- One step of `some_date - timedelta(days=1)`. -/
def prevDay (d : PyDate) : PyDate :=
  if 1 < d.day then ⟨d.year, d.month, d.day - 1⟩
  else if d.month = 1 then ⟨d.year - 1, 12, 31⟩
  else ⟨d.year, d.month - 1, monthLength d.year (d.month - 1)⟩

/-- `some_date - timedelta(days=k)`. -/
def subDays (d : PyDate) : Nat → PyDate
  | 0 => d
  | k + 1 => subDays (prevDay d) k

/-! ### `TradingCalendar._get_nth_weekday` and `TradingCalendar._get_good_friday`
(src/core/trading_calendar.py lines 200-225 and 270-302). -/

/-- `TradingCalendar._get_nth_weekday(year, month, weekday, n)`: day-of-month of
the first occurrence of `weekday`, plus `7 * (n - 1)` days. -/
def getNthWeekday (year month weekday n : Nat) : PyDate :=
  let firstWeekday := pyWeekday ⟨year, month, 1⟩
  let firstTarget :=
    if firstWeekday ≤ weekday then 1 + (weekday - firstWeekday)
    else 1 + (7 - firstWeekday + weekday)
  ⟨year, month, firstTarget + (n - 1) * 7⟩

/-- `TradingCalendar._get_good_friday(year)`: the anonymous-Gregorian Easter
congruence algorithm followed by `easter - timedelta(days=2)`.  The Python
source subtracts before adding 114 (`h + l - 7 * m + 114`); the value is
provably non-negative with `m ≤ 1` and `h + l ≥ 7 m`, so the reassociated
natural-number form below computes the same quotient and remainder. -/
def getGoodFriday (year : Nat) : PyDate :=
  let a := year % 19
  let b := year / 100
  let c := year % 100
  let d := b / 4
  let e := b % 4
  let f := (b + 8) / 25
  let g := (b - f + 1) / 3
  let h := (19 * a + b - d - g + 15) % 30
  let i := c / 4
  let k := c % 4
  let l := (32 + 2 * e + 2 * i - h - k) % 7
  let m := (a + 11 * h + 22 * l) / 451
  let easterMonth := (h + l + 114 - 7 * m) / 31
  let easterDay := ((h + l + 114 - 7 * m) % 31) + 1
  subDays ⟨year, easterMonth, easterDay⟩ 2

/-! ### `_third_friday` (src/data_crawler/crawlers/futures_crawler.py lines 47-51)

The source collects the non-zero Friday column of `calendar.monthcalendar`
and takes index 2.  The Fridays of a month are `f, f + 7, f + 14, ...` where
`f` is the day-of-month of the first Friday, so `fridays[2] = f + 14`;
`f = ((4 - weekday(year, month, 1)) mod 7) + 1` with Friday = 4. -/
def thirdFriday (year month : Nat) : Nat :=
  (11 - pyWeekday ⟨year, month, 1⟩) % 7 + 1 + 14

/-! ### Python dictionaries as association lists -/

def dictGet {α : Type} : List (String × α) → String → α → α
  | [], _, dflt => dflt
  | (k, v) :: rest, key, dflt => if k = key then v else dictGet rest key dflt

/-- Dictionary assignment, modelled by consing; lookups see the newest binding. -/
def dictSet {α : Type} (m : List (String × α)) (key : String) (v : α) :
    List (String × α) :=
  (key, v) :: m

def dictKeys {α : Type} (m : List (String × α)) : List String :=
  m.map Prod.fst

/-! ### Limit-status tracker (`LOFRealtimeMonitor._process_limit_alerts`,
`_compute_limit_status`, src/monitors/lof_monitor.py lines 77-138 and 208-230) -/

inductive LimitStatus
  | NORMAL
  | LIMIT_UP
  | LIMIT_DOWN
deriving DecidableEq, Repr

/-- `_compute_limit_status`, percent branch: the series starts as `NORMAL`,
rows with `pct >= limit_pct` are overwritten with `LIMIT_UP`, then rows with
`pct <= -limit_pct` are overwritten with `LIMIT_DOWN` (so `LIMIT_DOWN` wins
when both comparisons hold). -/
def statusOfPct (limitPct pct : ℚ) : LimitStatus :=
  if pct ≤ -limitPct then .LIMIT_DOWN
  else if limitPct ≤ pct then .LIMIT_UP
  else .NORMAL

/-- Pandas comparison of possibly-NaN cells: a NaN on either side is `False`. -/
def optGe (a b : Option ℚ) : Bool :=
  match a, b with
  | some x, some y => y ≤ x
  | _, _ => false

def optLe (a b : Option ℚ) : Bool :=
  match a, b with
  | some x, some y => x ≤ y
  | _, _ => false

/-- `_compute_limit_status`, price branch: `NORMAL`, overwritten with
`LIMIT_UP` where `price >= limit_up` (if that column exists), then with
`LIMIT_DOWN` where `price <= limit_down` (if that column exists). -/
def statusOfPrice (hasUp hasDown : Bool) (price up down : Option ℚ) : LimitStatus :=
  let s := if hasUp && optGe price up then LimitStatus.LIMIT_UP else LimitStatus.NORMAL
  if hasDown && optLe price down then .LIMIT_DOWN else s

/-- Which branch of `_compute_limit_status` applied for this poll: the percent
branch when a percent series is available, else the price branch with the
limit-up / limit-down columns that were found. -/
inductive LimitMode
  | pctMode
  | priceMode (hasUp hasDown : Bool)
deriving DecidableEq, Repr

/-- One row of the ordered watch-list subset, holding the (possibly NaN)
numeric cells the limit loop reads.  `pct` is this row's entry of the percent
series when the poll is in percent mode. -/
structure LimitRow where
  code : String
  pct : Option ℚ
  price : Option ℚ
  limup : Option ℚ
  limdown : Option ℚ
deriving DecidableEq, Repr

/-- The per-row skip test of the loop in `_process_limit_alerts` (lines
119-122): with a percent series the row is skipped iff its percent cell is
NaN; without one the row is skipped iff its price cell is NaN. -/
def detRow (mode : LimitMode) (r : LimitRow) : Bool :=
  match mode with
  | .pctMode => r.pct.isSome
  | .priceMode _ _ => r.price.isSome

/-- The status the poll computes for one row (`status.at[idx]`). -/
def rowStatus (limitPct : ℚ) (mode : LimitMode) (r : LimitRow) : LimitStatus :=
  match mode with
  | .pctMode =>
    match r.pct with
    | some p => statusOfPct limitPct p
    | none => .NORMAL
  | .priceMode hasUp hasDown => statusOfPrice hasUp hasDown r.price r.limup r.limdown

inductive LimitAlert
  | hit (st : LimitStatus) (code : String)
  | openBoard (last : LimitStatus) (code : String)
deriving DecidableEq, Repr

def alertCode : LimitAlert → String
  | .hit _ c => c
  | .openBoard _ c => c

/-- The alert messages sent for one row (lines 124-134): when the new status
differs from the last one, a limit-hit message if the new status is a limit
state, else an open-board message if the old status was a limit state and the
new one is `NORMAL`. -/
def alertsFor (cur last : LimitStatus) (code : String) : List LimitAlert :=
  if cur ≠ last then
    if cur = .LIMIT_UP ∨ cur = .LIMIT_DOWN then [.hit cur code]
    else if (last = .LIMIT_UP ∨ last = .LIMIT_DOWN) ∧ cur = .NORMAL then
      [.openBoard last code]
    else []
  else []

/-- The row loop of `_process_limit_alerts` (lines 104-136): threading the
`limit_state` dictionary through the rows, collecting the messages sent.
Skipped rows (`continue`) neither alert nor write their state entry. -/
def processLimitAlerts (limitPct : ℚ) (mode : LimitMode)
    (st : List (String × LimitStatus)) :
    List LimitRow → List (String × LimitStatus) × List LimitAlert
  | [] => (st, [])
  | r :: rs =>
    if detRow mode r then
      let cur := rowStatus limitPct mode r
      let last := dictGet st r.code .NORMAL
      let here := alertsFor cur last r.code
      let next := processLimitAlerts limitPct mode (dictSet st r.code cur) rs
      (next.1, here ++ next.2)
    else
      processLimitAlerts limitPct mode st rs

/-- A run of consecutive polls: each poll processes its rows against the state
left by the previous poll, as persisted through the state store. -/
def runLimitPolls (limitPct : ℚ) :
    List (LimitMode × List LimitRow) → List (String × LimitStatus) →
    List (String × LimitStatus) × List LimitAlert
  | [], st => (st, [])
  | (mode, rows) :: rest, st =>
    let step := processLimitAlerts limitPct mode st rows
    let next := runLimitPolls limitPct rest step.1
    (next.1, step.2 ++ next.2)

/-! ### Speed tracker (`LOFRealtimeMonitor._process_speed_alerts`,
`_update_speed_history`, src/monitors/lof_monitor.py lines 140-206 / 232-245) -/

inductive SpeedStatus
  | NORMAL
  | FAST_UP
  | FAST_DOWN
deriving DecidableEq, Repr

/-- The `while dq and now_ts - dq[0][0] > window_seconds: dq.popleft()` loop:
drop samples from the front while the front sample is stale. -/
def evictStale (now ws : ℚ) : List (ℚ × ℚ) → List (ℚ × ℚ)
  | [] => []
  | s :: rest => if ws < now - s.1 then evictStale now ws rest else s :: rest

/-- Lines 240-245: fewer than 2 samples, or a zero base price
(`if not base_price`), yield no change value; otherwise the percent change
from the oldest retained price to the latest price. -/
def changeOfWindow (price : ℚ) : List (ℚ × ℚ) → Option ℚ
  | [] => none
  | (_, basePrice) :: rest =>
    if rest.isEmpty then none
    else if basePrice = 0 then none
    else some ((price - basePrice) / basePrice * 100)

/-- `_update_speed_history`: append `(now, price)`, evict stale samples from
the front, return the new window and the optional percent change. -/
def updateSpeedHistory (dq : List (ℚ × ℚ)) (now price ws : ℚ) :
    List (ℚ × ℚ) × Option ℚ :=
  let dq2 := evictStale now ws (dq ++ [(now, price)])
  (dq2, changeOfWindow price dq2)

/-- Lines 183-188: classification of the computed change. -/
def classifySpeed (threshold change : ℚ) : SpeedStatus :=
  if threshold ≤ change then .FAST_UP
  else if change ≤ -threshold then .FAST_DOWN
  else .NORMAL

structure SpeedRow where
  code : String
  price : Option ℚ
deriving DecidableEq, Repr

inductive SpeedAlert
  | fastMove (cur : SpeedStatus) (code : String)
deriving DecidableEq, Repr

/-- One iteration of the row loop of `_process_speed_alerts` (lines 168-204):
rows with a NaN or non-positive price are skipped before touching the window;
a window yielding no change value is recorded but neither alerts nor updates
the status entry; otherwise an alert is sent iff the new status differs from
the last one and is a fast state, and the status entry is written. -/
def processSpeedRow (threshold ws now : ℚ)
    (hist : List (String × List (ℚ × ℚ))) (st : List (String × SpeedStatus))
    (row : SpeedRow) :
    List (String × List (ℚ × ℚ)) × List (String × SpeedStatus) × List SpeedAlert :=
  match row.price with
  | none => (hist, st, [])
  | some p =>
    if p ≤ 0 then (hist, st, [])
    else
      let dq := dictGet hist row.code []
      let upd := updateSpeedHistory dq now p ws
      let hist2 := dictSet hist row.code upd.1
      match upd.2 with
      | none => (hist2, st, [])
      | some ch =>
        let last := dictGet st row.code .NORMAL
        let cur := classifySpeed threshold ch
        let here :=
          if cur ≠ last ∧ (cur = .FAST_UP ∨ cur = .FAST_DOWN)
          then [SpeedAlert.fastMove cur row.code] else []
        (hist2, dictSet st row.code cur, here)

/-! ### Trading-calendar service (`TradingCalendar`,
src/core/trading_calendar.py lines 16-42 and 67-98)

The external bulk fetch (`ak.tool_trade_date_hist_sina`) is a collaborator; a
call's outcome is one of: a non-empty frame of dates, an empty / missing frame
(the loader returns leaving the state untouched), or an exception (the loader
sets the cached set to `None`).  `lastUpdateAge` models
`(datetime.now() - self._last_update).days`, `none` when `_last_update is None`. -/

inductive FetchResult
  | fetched (dates : List PyDate)
  | emptyData
  | fetchError
deriving DecidableEq, Repr

structure CalendarState where
  calendar : Option (List PyDate)
  lastUpdateAge : Option Nat
deriving DecidableEq, Repr

/-- `TradingCalendar._should_refresh_calendar` (lines 67-76). -/
def shouldRefreshCalendar (st : CalendarState) : Bool :=
  match st.calendar, st.lastUpdateAge with
  | none, _ => true
  | _, none => true
  | some _, some age => 7 ≤ age

/-- `TradingCalendar._load_a_share_calendar` (lines 78-98), with the fetch
outcome passed in. -/
def loadAShareCalendar (st : CalendarState) : FetchResult → CalendarState
  | .fetched dates => { calendar := some dates, lastUpdateAge := some 0 }
  | .emptyData => st
  | .fetchError => { st with calendar := none }

/-- `TradingCalendar.is_a_share_trading_day` (lines 16-42): weekend
short-circuit, conditional refresh, fail-open on a missing day-set, else
membership.  Returns the answer and the state after the call. -/
def isAShareTradingDay (st : CalendarState) (fr : FetchResult) (d : PyDate) :
    Bool × CalendarState :=
  if 5 ≤ pyWeekday d then (false, st)
  else
    let st2 := if shouldRefreshCalendar st then loadAShareCalendar st fr else st
    match st2.calendar with
    | none => (true, st2)
    | some dates => (decide (d ∈ dates), st2)

/-! ### Snapshot normalisation (`src/utils/data_parser.py`)

A raw snapshot is modelled as a list of rows, each a list of cell strings in
column order (`astype(str)` is applied by the source before every test).  The
frame is assumed rectangular; `List.getD` returns `""` out of range. -/

/-- `re.match` against the pattern of six digits anchored at both ends. -/
def is6Digit (s : String) : Bool :=
  s.length = 6 && s.toList.all Char.isDigit

def dfWidth (df : List (List String)) : Nat :=
  (df.headD []).length

/-- The first `min 50 len` values of column `idx`, as sampled by
`find_code_column_index`. -/
def sampleColumn (df : List (List String)) (idx : Nat) : List String :=
  (df.take (min 50 df.length)).map (fun r => r.getD idx (""))

/-- Number of sampled values of column `idx` matching the 6-digit pattern. -/
def matchCount (df : List (List String)) (idx : Nat) : Nat :=
  (sampleColumn df idx).countP is6Digit

/-- `hits / len(values)` for column `idx`. -/
def matchScore (df : List (List String)) (idx : Nat) : ℚ :=
  (matchCount df idx : ℚ) / ((sampleColumn df idx).length : ℚ)

/-- One iteration of the column loop of `find_code_column_index`: keep the
best column so far unless this column's score is strictly greater. -/
def bestStep (df : List (List String)) (best : Nat × ℚ) (idx : Nat) : Nat × ℚ :=
  let score := matchScore df idx
  if best.2 < score then (idx, score) else best

/-- `find_code_column_index` (lines 46-74): best-scoring column, ties broken
by first occurrence, starting from `best_idx = 0, best_score = -1.0`. -/
def find_code_column_index (df : List (List String)) : Nat :=
  if df = [] then 0
  else ((List.range (dfWidth df)).foldl (bestStep df) (0, -1)).1

/-- Python `str.zfill(width)`: left-pad with zeros to `width`, keeping a
leading sign in front of the padding. -/
def zfill (width : Nat) (s : String) : String :=
  let cs := s.toList
  if width ≤ cs.length then s
  else
    match cs with
    | '-' :: rest => String.mk ('-' :: (List.replicate (width - cs.length) '0' ++ rest))
    | '+' :: rest => String.mk ('+' :: (List.replicate (width - cs.length) '0' ++ rest))
    | _ => String.mk (List.replicate (width - cs.length) '0' ++ cs)

/-- `prepare_lof_df` (lines 77-93), returning the added `_code` column:
`None` for a missing or empty frame, else the zero-padded values of the
detected code column. -/
def prepare_lof_df (df : Option (List (List String))) : Option (List String) :=
  match df with
  | none => none
  | some rows =>
    if rows = [] then none
    else
      let codeIdx := find_code_column_index rows
      some (rows.map (fun r => zfill 6 (r.getD codeIdx (""))))

/-! ### Numeric coercion (`series_to_float`, src/utils/data_parser.py lines 7-24)

A series cell is a string, a (non-NaN) number, or a NaN.  For string cells the
source pipeline — drop `%` and `,`, strip whitespace, replace the placeholder
tokens by the empty string, `pd.to_numeric(..., errors="coerce")` — is embedded
character by character.  For numeric cells `astype(str)` renders the value's
decimal representation and `to_numeric` parses it back; that round-trip is
exact for Python floats (their `repr` parses to the same value), so a numeric
cell passes through unchanged, and a NaN cell renders as the placeholder
`"nan"` which coerces back to NaN. -/

inductive PyVal
  | PStr (s : String)
  | PNum (q : ℚ)
  | PNull
deriving DecidableEq, Repr

def removeChar (c : Char) (s : String) : String :=
  String.mk (s.toList.filter (fun x => x ≠ c))

/-- Python `str.strip()` with no argument: drop whitespace at both ends. -/
def stripWs (s : String) : String :=
  String.mk (((s.toList.dropWhile Char.isWhitespace).reverse.dropWhile
    Char.isWhitespace).reverse)

/-- The string cleaning chain of `series_to_float`: drop every `%` and `,`,
strip, then replace an exact placeholder token by the empty string. -/
def cleanCell (s : String) : String :=
  let t := stripWs (removeChar ',' (removeChar '%' s))
  if t = "-" ∨ t = "--" ∨ t = "nan" ∨ t = "None" then "" else t

def digitsToNat (cs : List Char) : Nat :=
  cs.foldl (fun n c => n * 10 + (c.toNat - ('0').toNat)) 0

/-- Decimal parsing as done by `pd.to_numeric(..., errors="coerce")` on the
cleaned strings the claims exercise: optional sign, digits, optional point and
fraction digits, at least one digit overall; anything else coerces to NaN.
The value is returned as a scaled integer: `(m, k)` stands for `m / 10 ^ k`. -/
def parsePartsUnsigned (cs : List Char) : Option (ℤ × ℕ) :=
  let intPart := cs.takeWhile Char.isDigit
  let rest := cs.dropWhile Char.isDigit
  match rest with
  | [] => if intPart.isEmpty then none else some ((digitsToNat intPart : ℤ), 0)
  | '.' :: frac =>
    if frac.all Char.isDigit && !(intPart.isEmpty && frac.isEmpty) then
      some ((digitsToNat intPart * 10 ^ frac.length + digitsToNat frac : ℤ),
        frac.length)
    else none
  | _ => none

def parseParts (s : String) : Option (ℤ × ℕ) :=
  match s.toList with
  | '-' :: rest => (parsePartsUnsigned rest).map (fun pr => (-pr.1, pr.2))
  | '+' :: rest => parsePartsUnsigned rest
  | cs => parsePartsUnsigned cs

def partsToRat (pr : ℤ × ℕ) : ℚ :=
  (pr.1 : ℚ) / 10 ^ pr.2

def parseDecimal (s : String) : Option ℚ :=
  (parseParts s).map partsToRat

/-- `series_to_float` applied to one cell. -/
def series_to_float_cell : PyVal → PyVal
  | .PStr s =>
    match parseDecimal (cleanCell s) with
    | some q => .PNum q
    | none => .PNull
  | .PNum q => .PNum q
  | .PNull => .PNull

/-! ### Rollover signal (`_check_signal`,
src/data_crawler/crawlers/futures_crawler.py lines 150-185)

Ratios are rounded to 4 places with round-half-to-even, the idealisation of
Python's `round(x, 4)` over the rationals.  The reason strings built by the
source are represented by one constructor per format string. -/

def roundHalfEven (x : ℚ) : ℤ :=
  let f := ⌊x⌋
  let r := x - f
  if r < 1 / 2 then f
  else if 1 / 2 < r then f + 1
  else if f % 2 = 0 then f else f + 1

def round4 (x : ℚ) : ℚ :=
  (roundHalfEven (x * 10000) : ℚ) / 10000

/-- `round(next / main, 4) if main > 0 else 0.0`. -/
def rolloverRat (next main : ℚ) : ℚ :=
  if 0 < main then round4 (next / main) else 0

inductive RolloverReason
  | strong (v o : ℚ)
  | medium (v o : ℚ)
  | volumeOnly (v : ℚ)
  | nearExpiry (daysLeft : ℤ) (month expDay : Nat)
  | nearExpiryBoost
  | noTrigger (v o : ℚ)
deriving DecidableEq, Repr

/-- `_check_signal`: base tiers first match wins, then the near-expiry block,
then the no-trigger fallback reason. -/
def checkSignal (mainVol mainOi nextVol nextOi : ℚ) (today : PyDate) :
    Bool × List RolloverReason :=
  let vRat := rolloverRat nextVol mainVol
  let oRat := rolloverRat nextOi mainOi
  let base : Bool × List RolloverReason :=
    if 3 / 2 < vRat ∧ 3 / 2 < oRat then (true, [.strong vRat oRat])
    else if 1 < vRat ∧ 1 < oRat then (true, [.medium vRat oRat])
    else if 2 < vRat then (true, [.volumeOnly vRat])
    else (false, [])
  let expDay := thirdFriday today.year today.month
  let daysLeft : ℤ := (expDay : ℤ) - (today.day : ℤ)
  let afterNe : Bool × List RolloverReason :=
    if 0 < daysLeft ∧ daysLeft ≤ 10 then
      let rs := base.2 ++ [RolloverReason.nearExpiry daysLeft today.month expDay]
      if base.1 = false ∧ (4 / 5 < vRat ∨ 4 / 5 < oRat) then
        (true, rs ++ [RolloverReason.nearExpiryBoost])
      else (base.1, rs)
    else base
  if afterNe.2.isEmpty then (afterNe.1, [.noTrigger vRat oRat]) else afterNe

/-! ## Theorems -/

/-! ### Dictionary and limit-tracker helper lemmas -/

lemma dictGet_set_self {α : Type} (m : List (String × α)) (k : String) (v dflt : α) :
    dictGet (dictSet m k v) k dflt = v := by
  simp [dictGet, dictSet]

lemma dictGet_set_ne {α : Type} (m : List (String × α)) (k key : String) (v dflt : α)
    (h : k ≠ key) : dictGet (dictSet m k v) key dflt = dictGet m key dflt := by
  simp [dictGet, dictSet, h]

lemma alertCode_alertsFor (cur last : LimitStatus) (code : String) :
    ∀ a ∈ alertsFor cur last code, alertCode a = code := by
  cases cur <;> cases last <;> simp [alertsFor, alertCode]

lemma filter_alertsFor_ne (cur last : LimitStatus) (code c : String)
    (h : code ≠ c) :
    (alertsFor cur last code).filter (fun a => alertCode a == c) = [] := by
  refine List.filter_eq_nil_iff.mpr (fun a ha => ?_)
  rw [alertCode_alertsFor cur last code a ha]
  simp [h]

lemma filter_alertsFor_self (cur last : LimitStatus) (code : String) :
    (alertsFor cur last code).filter (fun a => alertCode a == code)
      = alertsFor cur last code := by
  refine List.filter_eq_self.mpr (fun a ha => ?_)
  rw [alertCode_alertsFor cur last code a ha]
  simp

lemma alertsFor_self (cur : LimitStatus) (code : String) :
    alertsFor cur cur code = [] := by
  simp [alertsFor]

/-- Codes never mentioned by the rows keep their persisted status. -/
lemma processLimit_state_frame (limitPct : ℚ) (mode : LimitMode) (c : String)
    (dflt : LimitStatus) :
    ∀ (rows : List LimitRow) (st : List (String × LimitStatus)),
      c ∉ rows.map LimitRow.code →
      dictGet (processLimitAlerts limitPct mode st rows).1 c dflt
        = dictGet st c dflt := by
  intro rows
  induction rows with
  | nil => intro st _; rfl
  | cons r rs ih =>
    intro st h
    simp only [List.map_cons, List.mem_cons, not_or] at h
    obtain ⟨hne, hmem⟩ := h
    by_cases hd : detRow mode r = true
    · simp only [processLimitAlerts, hd, if_true]
      rw [ih _ hmem, dictGet_set_ne _ _ _ _ _ (fun hh => hne hh.symm)]
    · simp only [processLimitAlerts, hd, if_false]
      exact ih _ hmem

/-- Codes never mentioned by the rows receive no alert. -/
lemma processLimit_alerts_frame (limitPct : ℚ) (mode : LimitMode) (c : String) :
    ∀ (rows : List LimitRow) (st : List (String × LimitStatus)),
      c ∉ rows.map LimitRow.code →
      (processLimitAlerts limitPct mode st rows).2.filter
        (fun a => alertCode a == c) = [] := by
  intro rows
  induction rows with
  | nil => intro st _; rfl
  | cons r rs ih =>
    intro st h
    simp only [List.map_cons, List.mem_cons, not_or] at h
    obtain ⟨hne, hmem⟩ := h
    by_cases hd : detRow mode r = true
    · simp only [processLimitAlerts, hd, if_true, List.filter_append]
      rw [ih _ hmem, filter_alertsFor_ne _ _ _ _ (fun hh => hne hh.symm)]
      rfl
    · simp only [processLimitAlerts, hd, if_false]
      exact ih _ hmem

/-- With pairwise-distinct codes, the alerts mentioning a determinable row's
code are exactly the transition alerts for that row, computed against the
status persisted before the poll. -/
lemma processLimit_alerts_of_mem (limitPct : ℚ) (mode : LimitMode) :
    ∀ (rows : List LimitRow) (st : List (String × LimitStatus)) (r : LimitRow),
      (rows.map LimitRow.code).Nodup → r ∈ rows → detRow mode r = true →
      (processLimitAlerts limitPct mode st rows).2.filter
          (fun a => alertCode a == r.code)
        = alertsFor (rowStatus limitPct mode r)
            (dictGet st r.code .NORMAL) r.code := by
  intro rows
  induction rows with
  | nil => intro st r _ hr; exact absurd hr (List.not_mem_nil r)
  | cons r0 rs ih =>
    intro st r hnd hr hd
    simp only [List.map_cons, List.nodup_cons] at hnd
    obtain ⟨hnotin, hnd'⟩ := hnd
    rcases List.mem_cons.mp hr with hEq | hmem
    · subst hEq
      simp only [processLimitAlerts, hd, if_true, List.filter_append]
      rw [filter_alertsFor_self, processLimit_alerts_frame _ _ _ _ _ hnotin,
        List.append_nil]
    · have hne : r0.code ≠ r.code := by
        intro hh
        exact hnotin (hh ▸ List.mem_map_of_mem LimitRow.code hmem)
      by_cases hd0 : detRow mode r0 = true
      · simp only [processLimitAlerts, hd0, if_true, List.filter_append]
        rw [filter_alertsFor_ne _ _ _ _ hne, List.nil_append,
          ih _ _ hnd' hmem hd, dictGet_set_ne _ _ _ _ _ hne]
      · simp only [processLimitAlerts, hd0, if_false]
        exact ih _ _ hnd' hmem hd

/-! ### C1 -/

/-- C1: for every instrument code processed in a poll whose status could be
determined, exactly one alert is sent iff the newly computed status differs
from the last persisted status — a limit-hit message when the new status is a
limit state, an open-board message when the old status was a limit state and
the new one is `NORMAL`; and over a run of polls, 5 consecutive `LIMIT_UP`
polls emit exactly one limit-hit alert (on the first transition) and zero
thereafter, and a subsequent `NORMAL` poll emits exactly one open-board
alert. -/
theorem limit_alert_iff_transition :
    (∀ (limitPct : ℚ) (mode : LimitMode) (st : List (String × LimitStatus))
        (rows : List LimitRow) (r : LimitRow) (cur last : LimitStatus),
      (rows.map LimitRow.code).Nodup → r ∈ rows → detRow mode r = true →
      cur = rowStatus limitPct mode r → last = dictGet st r.code .NORMAL →
      (processLimitAlerts limitPct mode st rows).2.filter
          (fun a => alertCode a == r.code)
        = (if cur ≠ last then
            (if cur = .LIMIT_UP ∨ cur = .LIMIT_DOWN then [LimitAlert.hit cur r.code]
             else [LimitAlert.openBoard last r.code])
           else [])) ∧
    (∀ (limitPct p q : ℚ) (c : String) (st : List (String × LimitStatus)),
      statusOfPct limitPct p = .LIMIT_UP →
      statusOfPct limitPct q = .NORMAL →
      dictGet st c .NORMAL ≠ .LIMIT_UP →
      (runLimitPolls limitPct
          (List.replicate 5 (LimitMode.pctMode, [⟨c, some p, none, none, none⟩]) ++
            [(LimitMode.pctMode, [⟨c, some q, none, none, none⟩])]) st).2
        = [LimitAlert.hit .LIMIT_UP c, LimitAlert.openBoard .LIMIT_UP c]) := by
  constructor
  · intro limitPct mode st rows r cur last hnd hr hd hcur hlast
    rw [processLimit_alerts_of_mem limitPct mode rows st r hnd hr hd,
      ← hcur, ← hlast]
    cases cur <;> cases last <;> simp [alertsFor]
  · intro limitPct p q c st hp hq hlast
    have hlast2 : LimitStatus.LIMIT_UP ≠ dictGet st c .NORMAL := fun h => hlast h.symm
    simp only [List.replicate_succ, List.replicate_zero, List.nil_append,
      List.cons_append, List.append_nil]
    simp [runLimitPolls, processLimitAlerts, detRow, rowStatus, hp, hq,
      dictGet_set_self, alertsFor, hlast2]

/-- Witness for C1 at the end-to-end inputs of the spec: watch code `600519`,
`pct_change = 10.1`, `limit_pct = 9.9`, starting from an empty status map. -/
theorem limit_alert_iff_transition_witness :
    ((processLimitAlerts (99 / 10) .pctMode []
        [⟨"600519", some (101 / 10), none, none, none⟩]).2.filter
      (fun a => alertCode a == "600519"))
      = [LimitAlert.hit .LIMIT_UP "600519"] ∧
    (runLimitPolls (99 / 10)
        (List.replicate 5 (LimitMode.pctMode,
            [⟨"600519", some (101 / 10), none, none, none⟩]) ++
          [(LimitMode.pctMode, [⟨"600519", some 0, none, none, none⟩])]) []).2
      = [LimitAlert.hit .LIMIT_UP "600519",
         LimitAlert.openBoard .LIMIT_UP "600519"] := by
  have hup : statusOfPct (99 / 10) (101 / 10) = .LIMIT_UP := by
    norm_num [statusOfPct]
  have hnorm : statusOfPct (99 / 10) 0 = .NORMAL := by
    norm_num [statusOfPct]
  constructor
  · have h := limit_alert_iff_transition.1 (99 / 10) .pctMode []
      [⟨"600519", some (101 / 10), none, none, none⟩]
      ⟨"600519", some (101 / 10), none, none, none⟩ .LIMIT_UP .NORMAL
      (by simp) (by simp) rfl (by simp [rowStatus, hup]) rfl
    rw [h]
    simp
  · exact limit_alert_iff_transition.2 (99 / 10) (101 / 10) 0 "600519" []
      hup hnorm (by simp [dictGet])

/-- C8: the nth-weekday computation (first occurrence of the target weekday in
the month plus `7 * (n - 1)` days) and the Easter-minus-2-days Good Friday
computation produce, for year 2024: 3rd Friday of March = March 15, 4th
Thursday of November = November 28, and Good Friday = March 29. -/
theorem calendar_arithmetic_2024 :
    getNthWeekday 2024 3 4 3 = ⟨2024, 3, 15⟩ ∧
    getNthWeekday 2024 11 3 4 = ⟨2024, 11, 28⟩ ∧
    getGoodFriday 2024 = ⟨2024, 3, 29⟩ :=
  ⟨by decide, by decide, by decide⟩

/-- C9: the coercion function maps `"12.3%"` to `12.3`, `"1,234"` to `1234`,
and each of `"--"`, `""`, `"-"` to a missing value, never raising on
unparsable input, and it is idempotent: coercing an already-coerced value
returns it unchanged (in particular an already-numeric value is returned
unchanged). -/
theorem series_to_float_coercion :
    series_to_float_cell (.PStr "12.3%") = .PNum (123 / 10) ∧
    series_to_float_cell (.PStr "1,234") = .PNum 1234 ∧
    series_to_float_cell (.PStr "--") = .PNull ∧
    series_to_float_cell (.PStr "") = .PNull ∧
    series_to_float_cell (.PStr "-") = .PNull ∧
    (∀ q : ℚ, series_to_float_cell (.PNum q) = .PNum q) ∧
    ∀ v : PyVal, series_to_float_cell (series_to_float_cell v) =
      series_to_float_cell v := by
  have h1 : parseParts (cleanCell "12.3%") = some (123, 1) := by decide
  have h2 : parseParts (cleanCell "1,234") = some (1234, 0) := by decide
  refine ⟨?_, ?_, by decide, by decide, by decide, fun q => rfl, ?_⟩
  · simp only [series_to_float_cell, parseDecimal, h1, Option.map_some]
    norm_num [partsToRat]
  · simp only [series_to_float_cell, parseDecimal, h2, Option.map_some]
    norm_num [partsToRat]
  · intro v
    cases v with
    | PStr s =>
      cases hp : parseDecimal (cleanCell s) with
      | none => simp [series_to_float_cell, hp]
      | some q => simp [series_to_float_cell, hp]
    | PNum q => rfl
    | PNull => rfl

/-! ### C4 -/

lemma processLimit_state_of_mem (limitPct : ℚ) (mode : LimitMode) :
    ∀ (rows : List LimitRow) (st : List (String × LimitStatus)) (r : LimitRow),
      (rows.map LimitRow.code).Nodup → r ∈ rows → detRow mode r = true →
      dictGet (processLimitAlerts limitPct mode st rows).1 r.code .NORMAL
        = rowStatus limitPct mode r := by
  intro rows
  induction rows with
  | nil => intro st r _ hr; exact absurd hr (List.not_mem_nil r)
  | cons r0 rs ih =>
    intro st r hnd hr hd
    simp only [List.map_cons, List.nodup_cons] at hnd
    obtain ⟨hnotin, hnd'⟩ := hnd
    rcases List.mem_cons.mp hr with hEq | hmem
    · subst hEq
      simp only [processLimitAlerts, hd, if_true]
      rw [processLimit_state_frame _ _ _ _ _ _ hnotin, dictGet_set_self]
    · have hne : r0.code ≠ r.code := by
        intro hh
        exact hnotin (hh ▸ List.mem_map_of_mem LimitRow.code hmem)
      by_cases hd0 : detRow mode r0 = true
      · simp only [processLimitAlerts, hd0, if_true]
        exact ih _ _ hnd' hmem hd
      · simp only [processLimitAlerts, hd0, if_false]
        exact ih _ _ hnd' hmem hd

/-- C4: on every limit-tracker poll, the persisted entry of every processed
instrument whose status was determinable is set to the newly computed status
(whether or not an alert fired), while the entry of every instrument skipped
for insufficient data, and of every code absent from the snapshot subset, is
left unchanged. -/
theorem limit_state_frame_condition :
    (∀ (limitPct : ℚ) (mode : LimitMode) (st : List (String × LimitStatus))
        (rows : List LimitRow) (r : LimitRow),
      (rows.map LimitRow.code).Nodup → r ∈ rows → detRow mode r = true →
      dictGet (processLimitAlerts limitPct mode st rows).1 r.code .NORMAL
        = rowStatus limitPct mode r) ∧
    (∀ (limitPct : ℚ) (mode : LimitMode) (st : List (String × LimitStatus))
        (rows : List LimitRow) (c : String) (dflt : LimitStatus),
      (∀ r ∈ rows, r.code = c → detRow mode r = false) →
      dictGet (processLimitAlerts limitPct mode st rows).1 c dflt
        = dictGet st c dflt) := by
  constructor
  · intro limitPct mode st rows r hnd hr hd
    exact processLimit_state_of_mem limitPct mode rows st r hnd hr hd
  · intro limitPct mode st rows c dflt
    induction rows generalizing st with
    | nil => intro _; rfl
    | cons r0 rs ih =>
      intro h
      by_cases hc : r0.code = c
      · have hd0 : detRow mode r0 = false := h r0 (List.mem_cons_self r0 rs) hc
        simp only [processLimitAlerts, hd0, Bool.false_eq_true, if_false]
        exact ih _ (fun r hr => h r (List.mem_cons_of_mem r0 hr))
      · by_cases hd0 : detRow mode r0 = true
        · simp only [processLimitAlerts, hd0, if_true]
          rw [ih _ (fun r hr => h r (List.mem_cons_of_mem r0 hr)),
            dictGet_set_ne _ _ _ _ _ hc]
        · simp only [processLimitAlerts, hd0, if_false]
          exact ih _ (fun r hr => h r (List.mem_cons_of_mem r0 hr))

/-- Witness for C4: a two-row poll, one determinable row (written) and one
NaN-percent row (skipped, left at its persisted value). -/
theorem limit_state_frame_condition_witness :
    dictGet (processLimitAlerts (99 / 10) .pctMode [("000002", .LIMIT_DOWN)]
        [⟨"600519", some (101 / 10), none, none, none⟩,
         ⟨"000002", none, none, none, none⟩]).1 "600519" .NORMAL
      = statusOfPct (99 / 10) (101 / 10) ∧
    dictGet (processLimitAlerts (99 / 10) .pctMode [("000002", .LIMIT_DOWN)]
        [⟨"600519", some (101 / 10), none, none, none⟩,
         ⟨"000002", none, none, none, none⟩]).1 "000002" .NORMAL
      = .LIMIT_DOWN := by
  constructor
  · exact limit_state_frame_condition.1 (99 / 10) .pctMode [("000002", .LIMIT_DOWN)]
      [⟨"600519", some (101 / 10), none, none, none⟩,
       ⟨"000002", none, none, none, none⟩]
      ⟨"600519", some (101 / 10), none, none, none⟩
      (by simp) (by simp) rfl
  · have h := limit_state_frame_condition.2 (99 / 10) .pctMode
      [("000002", .LIMIT_DOWN)]
      [⟨"600519", some (101 / 10), none, none, none⟩,
       ⟨"000002", none, none, none, none⟩] "000002" .NORMAL
      (by
        intro r hr hc
        rcases List.mem_cons.mp hr with h1 | h2
        · subst h1; simp at hc
        · simp only [List.mem_singleton] at h2; subst h2; rfl)
    rw [h]
    simp [dictGet]

/-! ### C10 -/

lemma dictGet_not_mem_keys {α : Type} :
    ∀ (m : List (String × α)) (c : String) (dflt : α),
      c ∉ dictKeys m → dictGet m c dflt = dflt := by
  intro m
  induction m with
  | nil => intro c dflt _; rfl
  | cons kv rest ih =>
    intro c dflt h
    obtain ⟨k, v⟩ := kv
    simp only [dictKeys, List.map_cons, List.mem_cons, not_or] at h
    obtain ⟨hne, hmem⟩ := h
    simp only [dictGet]
    rw [if_neg (fun hh => hne hh.symm)]
    exact ih c dflt hmem

/-- C10: for every code with no entry in the persisted status map, both
trackers take the last status to be `NORMAL`; hence an instrument whose first
determinable poll computes a limit state emits a hit alert on that very first
poll, and an instrument whose first computed speed status is a fast state
emits a speed alert on that poll. -/
theorem unseen_code_defaults_normal :
    (∀ (st : List (String × LimitStatus)) (c : String),
      c ∉ dictKeys st → dictGet st c .NORMAL = .NORMAL) ∧
    (∀ (st : List (String × SpeedStatus)) (c : String),
      c ∉ dictKeys st → dictGet st c .NORMAL = .NORMAL) ∧
    (∀ (limitPct : ℚ) (mode : LimitMode) (st : List (String × LimitStatus))
        (rows : List LimitRow) (r : LimitRow),
      (rows.map LimitRow.code).Nodup → r ∈ rows → detRow mode r = true →
      r.code ∉ dictKeys st →
      (rowStatus limitPct mode r = .LIMIT_UP ∨
        rowStatus limitPct mode r = .LIMIT_DOWN) →
      (processLimitAlerts limitPct mode st rows).2.filter
          (fun a => alertCode a == r.code)
        = [LimitAlert.hit (rowStatus limitPct mode r) r.code]) ∧
    (∀ (threshold ws now : ℚ) (hist : List (String × List (ℚ × ℚ)))
        (st : List (String × SpeedStatus)) (row : SpeedRow) (p ch : ℚ),
      row.price = some p → ¬p ≤ 0 →
      (updateSpeedHistory (dictGet hist row.code []) now p ws).2 = some ch →
      row.code ∉ dictKeys st →
      (classifySpeed threshold ch = .FAST_UP ∨
        classifySpeed threshold ch = .FAST_DOWN) →
      (processSpeedRow threshold ws now hist st row).2.2
        = [SpeedAlert.fastMove (classifySpeed threshold ch) row.code]) := by
  refine ⟨fun st c h => dictGet_not_mem_keys st c _ h,
    fun st c h => dictGet_not_mem_keys st c _ h, ?_, ?_⟩
  · intro limitPct mode st rows r hnd hr hd hkeys hfast
    rw [processLimit_alerts_of_mem limitPct mode rows st r hnd hr hd,
      dictGet_not_mem_keys st r.code _ hkeys]
    rcases hfast with h | h <;> rw [h] <;> simp [alertsFor]
  · intro threshold ws now hist st row p ch hp hpos hch hkeys hfast
    have hlast : dictGet st row.code .NORMAL = .NORMAL :=
      dictGet_not_mem_keys st row.code _ hkeys
    have hne : classifySpeed threshold ch ≠ dictGet st row.code .NORMAL := by
      rw [hlast]
      rcases hfast with h | h <;> rw [h] <;> simp
    simp only [processSpeedRow, hp, hpos, if_false, hch, hne, hfast,
      and_true, if_true]
    simp [hne, hfast]

/-- Witness for C10 at concrete inputs: an empty status map, a first poll
computing `LIMIT_UP` (limit tracker) and a window change of 5% against a 2%
threshold (speed tracker). -/
theorem unseen_code_defaults_normal_witness :
    dictGet ([] : List (String × LimitStatus)) "600519" .NORMAL = .NORMAL ∧
    dictGet ([] : List (String × SpeedStatus)) "600519" .NORMAL = .NORMAL ∧
    (processLimitAlerts (99 / 10) .pctMode []
        [⟨"600519", some (101 / 10), none, none, none⟩]).2.filter
        (fun a => alertCode a == "600519")
      = [LimitAlert.hit (rowStatus (99 / 10) .pctMode
          ⟨"600519", some (101 / 10), none, none, none⟩) "600519"] ∧
    (processSpeedRow 2 600 300 [("159915", [(0, 100)])] [] ⟨"159915", some 105⟩).2.2
      = [SpeedAlert.fastMove (classifySpeed 2 5) "159915"] := by
  have hch : (updateSpeedHistory (dictGet [("159915", [(0, 100)])] "159915" [])
      300 105 600).2 = some 5 := by
    have : dictGet [("159915", [(0, 100)])] "159915" ([] : List (ℚ × ℚ))
        = [(0, 100)] := by simp [dictGet]
    rw [this]
    simp only [updateSpeedHistory, evictStale, changeOfWindow]
    norm_num
  refine ⟨unseen_code_defaults_normal.1 [] "600519" (by simp [dictKeys]),
    unseen_code_defaults_normal.2.1 [] "600519" (by simp [dictKeys]), ?_, ?_⟩
  · refine unseen_code_defaults_normal.2.2.1 (99 / 10) .pctMode []
      [⟨"600519", some (101 / 10), none, none, none⟩]
      ⟨"600519", some (101 / 10), none, none, none⟩
      (by simp) (by simp) rfl (by simp [dictKeys]) ?_
    left
    norm_num [rowStatus, statusOfPct]
  · refine unseen_code_defaults_normal.2.2.2 2 600 300 [("159915", [(0, 100)])]
      [] ⟨"159915", some 105⟩ 105 5 rfl (by norm_num) hch (by simp [dictKeys]) ?_
    left
    norm_num [classifySpeed]

/-! ### C3 -/

lemma evictStale_bound (now ws : ℚ) :
    ∀ l : List (ℚ × ℚ), l.Pairwise (fun a b => a.1 ≤ b.1) →
      ∀ x ∈ evictStale now ws l, now - x.1 ≤ ws := by
  intro l
  induction l with
  | nil => intro _ x hx; simp [evictStale] at hx
  | cons s rest ih =>
    intro hpw x hx
    rw [List.pairwise_cons] at hpw
    obtain ⟨hhead, htail⟩ := hpw
    by_cases hst : ws < now - s.1
    · rw [evictStale, if_pos hst] at hx
      exact ih htail x hx
    · rw [evictStale, if_neg hst] at hx
      rcases List.mem_cons.mp hx with h1 | h2
      · subst h1; exact le_of_not_lt hst
      · have h3 := hhead x h2
        have h4 := le_of_not_lt hst
        linarith

lemma evictStale_subset (now ws : ℚ) :
    ∀ l : List (ℚ × ℚ), ∀ x ∈ evictStale now ws l, x ∈ l := by
  intro l
  induction l with
  | nil => intro x hx; simp [evictStale] at hx
  | cons s rest ih =>
    intro x hx
    by_cases hst : ws < now - s.1
    · rw [evictStale, if_pos hst] at hx
      exact List.mem_cons_of_mem s (ih x hx)
    · rwa [evictStale, if_neg hst] at hx

lemma evictStale_suffix (now ws : ℚ) :
    ∀ l : List (ℚ × ℚ), (evictStale now ws l).IsSuffix l := by
  intro l
  induction l with
  | nil => exact ⟨[], rfl⟩
  | cons s rest ih =>
    by_cases hst : ws < now - s.1
    · rw [evictStale, if_pos hst]
      exact ih.trans (List.suffix_cons s rest)
    · rw [evictStale, if_neg hst]

lemma changeOfWindow_short (price : ℚ) :
    ∀ l : List (ℚ × ℚ), l.length < 2 → changeOfWindow price l = none := by
  intro l hl
  match l with
  | [] => rfl
  | [x] => rfl
  | x :: y :: rest => simp at hl; omega

/-- C3: after appending `(now, price)` and evicting, every retained sample is
within `window_seconds` of the just-appended timestamp (provided the window's
timestamps are in poll order and the new poll is not earlier than them), and
whenever fewer than 2 samples are retained the update yields no change value,
so the poll makes no classification, no alert and no status write for that
code. -/
theorem sliding_window_invariant :
    (∀ (dq : List (ℚ × ℚ)) (now price ws : ℚ),
      dq.Pairwise (fun a b => a.1 ≤ b.1) → (∀ x ∈ dq, x.1 ≤ now) →
      ∀ x ∈ (updateSpeedHistory dq now price ws).1, now - x.1 ≤ ws) ∧
    (∀ (dq : List (ℚ × ℚ)) (now price ws : ℚ),
      (updateSpeedHistory dq now price ws).1.length < 2 →
      (updateSpeedHistory dq now price ws).2 = none) ∧
    (∀ (threshold ws now : ℚ) (hist : List (String × List (ℚ × ℚ)))
        (st : List (String × SpeedStatus)) (row : SpeedRow) (p : ℚ),
      row.price = some p → ¬p ≤ 0 →
      (updateSpeedHistory (dictGet hist row.code []) now p ws).2 = none →
      (processSpeedRow threshold ws now hist st row).2 = (st, [])) := by
  refine ⟨?_, ?_, ?_⟩
  · intro dq now price ws hpw hle x hx
    refine evictStale_bound now ws _ ?_ x hx
    rw [List.pairwise_append]
    refine ⟨hpw, List.pairwise_singleton _ _, ?_⟩
    intro a ha b hb
    rw [List.mem_singleton] at hb
    subst hb
    exact hle a ha
  · intro dq now price ws hl
    exact changeOfWindow_short price _ hl
  · intro threshold ws now hist st row p hp hpos hnone
    simp only [processSpeedRow, hp, hpos, if_false, hnone]

/-- Witness for C3: a window holding samples at t = 0 and t = 300 updated at
t = 700 with a 600-second window evicts the t = 0 sample and retains samples
within 600s; a single-sample window yields no change value; and a poll whose
window yields no change value leaves the status map unchanged and sends
nothing. -/
theorem sliding_window_invariant_witness :
    (∀ x ∈ (updateSpeedHistory [(0, 100), (300, 101)] 700 105 600).1,
      (700 : ℚ) - x.1 ≤ 600) ∧
    (updateSpeedHistory [] 0 100 600).2 = none ∧
    (processSpeedRow 2 600 0 [] [("159915", .FAST_UP)] ⟨"159915", some 100⟩).2
      = ([("159915", .FAST_UP)], []) := by
  refine ⟨?_, ?_, ?_⟩
  · refine sliding_window_invariant.1 [(0, 100), (300, 101)] 700 105 600 ?_ ?_
    · norm_num [List.pairwise_cons]
    · intro x hx
      rcases List.mem_cons.mp hx with h1 | h2
      · subst h1; norm_num
      · rw [List.mem_singleton] at h2; subst h2; norm_num
  · refine sliding_window_invariant.2.1 [] 0 100 600 ?_
    norm_num [updateSpeedHistory, evictStale]
  · refine sliding_window_invariant.2.2 2 600 0 [] [("159915", .FAST_UP)]
      ⟨"159915", some 100⟩ 100 rfl (by norm_num) ?_
    norm_num [updateSpeedHistory, evictStale, dictGet, changeOfWindow]

/-! ### C2 -/

/-- C2: on a poll whose window retains at least 2 samples after the update,
the tracker computes `change_pct = (latest_price - oldest_retained_price) /
oldest_retained_price * 100` (the latest sample being the one just appended),
classifies `FAST_UP` when `change_pct >= threshold`, `FAST_DOWN` when
`change_pct <= -threshold`, `NORMAL` otherwise, and sends an alert iff the new
status differs from the last persisted status and is a fast state; the status
entry is written either way. -/
theorem speed_step_transition :
    ∀ (threshold ws now : ℚ) (hist : List (String × List (ℚ × ℚ)))
      (st : List (String × SpeedStatus)) (row : SpeedRow) (p : ℚ)
      (bts bp : ℚ) (rest2 : List (ℚ × ℚ)),
      0 < threshold →
      row.price = some p → 0 < p →
      (∀ x ∈ dictGet hist row.code ([] : List (ℚ × ℚ)), 0 < x.2) →
      (updateSpeedHistory (dictGet hist row.code []) now p ws).1
        = (bts, bp) :: rest2 →
      rest2 ≠ [] →
      (updateSpeedHistory (dictGet hist row.code []) now p ws).2
          = some ((p - bp) / bp * 100) ∧
      ((updateSpeedHistory (dictGet hist row.code []) now p ws).1.getLast?
          = some (now, p)) ∧
      (∀ ch : ℚ, ch = (p - bp) / bp * 100 →
        (classifySpeed threshold ch = .FAST_UP ↔ threshold ≤ ch) ∧
        (classifySpeed threshold ch = .FAST_DOWN ↔ ch ≤ -threshold) ∧
        (classifySpeed threshold ch = .NORMAL ↔
          (¬threshold ≤ ch ∧ ¬ch ≤ -threshold))) ∧
      (∀ cur last : SpeedStatus,
        cur = classifySpeed threshold ((p - bp) / bp * 100) →
        last = dictGet st row.code .NORMAL →
        (processSpeedRow threshold ws now hist st row).2.2
          = (if cur ≠ last ∧ (cur = .FAST_UP ∨ cur = .FAST_DOWN)
             then [SpeedAlert.fastMove cur row.code] else []) ∧
        dictGet (processSpeedRow threshold ws now hist st row).2.1
          row.code .NORMAL = cur) := by
  intro threshold ws now hist st row p bts bp rest2 hth hp hpos hdqpos hdq2 hrest
  have hbp : 0 < bp := by
    have hmem : ((bts, bp) : ℚ × ℚ) ∈ (bts, bp) :: rest2 := List.mem_cons_self _ _
    rw [← hdq2] at hmem
    have hmem2 := evictStale_subset now ws _ _ hmem
    rcases List.mem_append.mp hmem2 with h1 | h2
    · exact hdqpos _ h1
    · rw [List.mem_singleton] at h2
      have : bp = p := congrArg Prod.snd h2
      rw [this]; exact hpos
  have hchange : (updateSpeedHistory (dictGet hist row.code []) now p ws).2
      = some ((p - bp) / bp * 100) := by
    simp only [updateSpeedHistory] at hdq2 ⊢
    rw [hdq2, changeOfWindow]
    rw [if_neg (by simpa using hrest), if_neg (ne_of_gt hbp)]
  refine ⟨hchange, ?_, ?_, ?_⟩
  · have hsfx := evictStale_suffix now ws (dictGet hist row.code [] ++ [(now, p)])
    obtain ⟨t, ht⟩ := hsfx
    have hne : (updateSpeedHistory (dictGet hist row.code []) now p ws).1 ≠ [] := by
      rw [hdq2]; exact List.cons_ne_nil _ _
    have h1 : (updateSpeedHistory (dictGet hist row.code []) now p ws).1.getLast?
        = (t ++ (updateSpeedHistory (dictGet hist row.code []) now p ws).1).getLast? :=
      (List.getLast?_append_of_ne_nil t hne).symm
    rw [h1]
    have ht2 : t ++ (updateSpeedHistory (dictGet hist row.code []) now p ws).1
        = dictGet hist row.code [] ++ [(now, p)] := ht
    rw [ht2, List.getLast?_append_of_ne_nil _ (List.cons_ne_nil _ _)]
    rfl
  · intro ch _
    unfold classifySpeed
    refine ⟨?_, ?_, ?_⟩
    · by_cases h1 : threshold ≤ ch
      · simp [h1]
      · by_cases h2 : ch ≤ -threshold <;> simp [h1, h2]
    · by_cases h1 : threshold ≤ ch
      · have : ¬ch ≤ -threshold := by intro h2; linarith
        simp [h1, this]
      · by_cases h2 : ch ≤ -threshold <;> simp [h1, h2]
    · by_cases h1 : threshold ≤ ch
      · simp [h1]
      · by_cases h2 : ch ≤ -threshold <;> simp [h1, h2]
  · intro cur last hcur hlast
    have hple : ¬p ≤ 0 := not_le.mpr hpos
    constructor
    · simp only [processSpeedRow, hp, hple, if_false, hchange, ← hcur, ← hlast]
    · simp only [processSpeedRow, hp, hple, if_false, hchange, ← hcur]
      exact dictGet_set_self _ _ _ _

/-- Witness for C2: window `[(0, 100), (300, 101)]`, poll at t = 700 with
price 105 and a 600-second window: the t = 0 sample is evicted, the change is
computed from base price 101, and with threshold 2% a `FAST_UP` alert is sent
against an empty persisted map. -/
theorem speed_step_transition_witness :
    (updateSpeedHistory (dictGet [("159915", [(0, 100), (300, 101)])] "159915" [])
        700 105 600).2 = some ((105 - 101) / 101 * 100) ∧
    (processSpeedRow 2 600 700 [("159915", [(0, 100), (300, 101)])] []
        ⟨"159915", some 105⟩).2.2
      = [SpeedAlert.fastMove (classifySpeed 2 ((105 - 101) / 101 * 100))
          "159915"] := by
  have hdq : dictGet [("159915", [(0, 100), (300, 101)])] "159915"
      ([] : List (ℚ × ℚ)) = [(0, 100), (300, 101)] := by simp [dictGet]
  have hdq2 : (updateSpeedHistory (dictGet [("159915", [(0, 100), (300, 101)])]
      "159915" []) 700 105 600).1 = [((300 : ℚ), (101 : ℚ)), (700, 105)] := by
    rw [hdq]
    simp only [updateSpeedHistory, List.cons_append, List.nil_append, evictStale]
    norm_num
  have h := speed_step_transition 2 600 700 [("159915", [(0, 100), (300, 101)])]
    [] ⟨"159915", some 105⟩ 105 300 101 [((700 : ℚ), (105 : ℚ))]
    (by norm_num) rfl (by norm_num)
    (by
      rw [hdq]
      intro x hx
      rcases List.mem_cons.mp hx with h1 | h2
      · subst h1; norm_num
      · rw [List.mem_singleton] at h2; subst h2; norm_num)
    hdq2 (List.cons_ne_nil _ _)
  refine ⟨h.1, ?_⟩
  have h4 := (h.2.2.2 (classifySpeed 2 ((105 - 101) / 101 * 100))
    (dictGet [] "159915" .NORMAL) rfl rfl).1
  rw [h4]
  have hcl : classifySpeed 2 (((105 : ℚ) - 101) / 101 * 100) = .FAST_UP := by
    norm_num [classifySpeed]
  rw [hcl]
  simp [dictGet]

/-! ### C5 -/

lemma sampleColumn_length (df : List (List String)) (i : Nat) :
    (sampleColumn df i).length = min 50 df.length := by
  simp [sampleColumn]

lemma matchScore_of_count_zero (df : List (List String)) (i : Nat)
    (h : matchCount df i = 0) : matchScore df i = 0 := by
  rw [matchScore, h]
  simp

lemma foldBest_stays (df : List (List String))
    (hscore : ∀ i, matchScore df i = 0) :
    ∀ (l : List Nat) (b : Nat × ℚ), 0 ≤ b.2 →
      l.foldl (bestStep df) b = b := by
  intro l
  induction l with
  | nil => intro b _; rfl
  | cons i rest ih =>
    intro b hb
    rw [List.foldl_cons]
    have hstep : bestStep df b i = b := by
      rw [bestStep, hscore i]
      show (if b.2 < (0 : ℚ) then (i, (0 : ℚ)) else b) = b
      rw [if_neg (not_lt.mpr hb)]
    rw [hstep]
    exact ih b hb

/-- Counterexample to C5 as stated: the one-row snapshot `[["x", "y"]]` is
non-empty and has zero 6-digit matches in each of its 2 columns, yet
normalization does not return "no data": a code column (index 0) is selected
and `prepare_lof_df` returns the zero-padded first column. -/
theorem normalizer_no_threshold_counterexample :
    matchCount [["x", "y"]] 0 = 0 ∧
    matchCount [["x", "y"]] 1 = 0 ∧
    dfWidth [["x", "y"]] = 2 ∧
    ([["x", "y"]] : List (List String)) ≠ [] ∧
    prepare_lof_df (some [["x", "y"]]) = some ["00000x"] := by
  have hs0 : matchScore [["x", "y"]] 0 = 0 :=
    matchScore_of_count_zero _ _ rfl
  have hs1 : matchScore [["x", "y"]] 1 = 0 :=
    matchScore_of_count_zero _ _ rfl
  have hidx : find_code_column_index [["x", "y"]] = 0 := by
    rw [find_code_column_index, if_neg (by simp)]
    have hr : List.range (dfWidth [["x", "y"]]) = [0, 1] := rfl
    rw [hr]
    simp only [List.foldl_cons, List.foldl_nil]
    have h1 : bestStep [["x", "y"]] (0, -1) 0 = (0, 0) := by
      rw [bestStep, hs0]
      norm_num
    have h2 : bestStep [["x", "y"]] (0, 0) 1 = (0, 0) := by
      rw [bestStep, hs1]
      norm_num
    rw [h1, h2]
  refine ⟨rfl, rfl, rfl, by simp, ?_⟩
  simp only [prepare_lof_df]
  rw [if_neg (by simp), hidx]
  rfl

/-- C5 amended: a missing or empty snapshot makes `prepare_lof_df` return
"no data", but no minimum match threshold exists: on a non-empty snapshot in
which no column contains any 6-digit value, `find_code_column_index` falls
back to the first column and `prepare_lof_df` returns its zero-padded
values. -/
theorem normalizer_failure_amended :
    prepare_lof_df none = none ∧
    prepare_lof_df (some []) = none ∧
    (∀ df : List (List String), df ≠ [] →
      (∀ i, matchCount df i = 0) →
      find_code_column_index df = 0 ∧
      prepare_lof_df (some df)
        = some (df.map (fun r => zfill 6 (r.getD 0 "")))) := by
  refine ⟨rfl, rfl, ?_⟩
  intro df hne hzero
  have hscore : ∀ i, matchScore df i = 0 :=
    fun i => matchScore_of_count_zero df i (hzero i)
  have hidx : find_code_column_index df = 0 := by
    rw [find_code_column_index, if_neg hne]
    cases hw : dfWidth df with
    | zero => rfl
    | succ w =>
      rw [List.range_succ_eq_map, List.foldl_cons]
      have h1 : bestStep df (0, -1) 0 = (0, 0) := by
        rw [bestStep, hscore 0]
        norm_num
      rw [h1, foldBest_stays df hscore _ _ le_rfl]
  refine ⟨hidx, ?_⟩
  simp only [prepare_lof_df]
  rw [if_neg hne, hidx]

/-- Witness for C5 amended at the concrete snapshot of the counterexample. -/
theorem normalizer_failure_amended_witness :
    find_code_column_index [["x", "y"]] = 0 ∧
    prepare_lof_df (some [["x", "y"]]) = some ["00000x"] := by
  have h := normalizer_failure_amended.2.2 [["x", "y"]] (by simp)
    (fun i => by
      rw [matchCount]
      have hs : sampleColumn [["x", "y"]] i = [["x", "y"].getD i ""] := rfl
      rw [hs]
      cases i with
      | zero => rfl
      | succ j =>
        cases j with
        | zero => rfl
        | succ k => rfl)
  refine ⟨h.1, ?_⟩
  rw [h.2]
  rfl

/-! ### C6 -/

/-- C6: a Saturday or Sunday gives `False` without consulting or refreshing
the cached day-set (the state is untouched and the fetch outcome is never
examined); the refresh predicate holds exactly when the cached set is missing,
never loaded, or at least 7 days old; and on a weekday the answer is `True`
(fail open) when the day-set is unavailable after the conditional refresh,
else membership of the date in the refreshed day-set. -/
theorem a_share_calendar_gate :
    (∀ (st : CalendarState) (fr : FetchResult) (d : PyDate),
      5 ≤ pyWeekday d → isAShareTradingDay st fr d = (false, st)) ∧
    (∀ st : CalendarState,
      shouldRefreshCalendar st = true ↔
        st.calendar = none ∨ st.lastUpdateAge = none ∨
          ∃ age, st.lastUpdateAge = some age ∧ 7 ≤ age) ∧
    (∀ (st : CalendarState) (fr : FetchResult) (d : PyDate),
      pyWeekday d < 5 →
      (if shouldRefreshCalendar st then loadAShareCalendar st fr else st).calendar
          = none →
      isAShareTradingDay st fr d
        = (true, if shouldRefreshCalendar st then loadAShareCalendar st fr else st)) ∧
    (∀ (st : CalendarState) (fr : FetchResult) (d : PyDate)
        (dates : List PyDate),
      pyWeekday d < 5 →
      (if shouldRefreshCalendar st then loadAShareCalendar st fr else st).calendar
          = some dates →
      isAShareTradingDay st fr d
        = (decide (d ∈ dates),
           if shouldRefreshCalendar st then loadAShareCalendar st fr else st)) := by
  refine ⟨?_, ?_, ?_, ?_⟩
  · intro st fr d hw
    rw [isAShareTradingDay, if_pos hw]
  · intro st
    obtain ⟨cal, age⟩ := st
    cases cal with
    | none => simp [shouldRefreshCalendar]
    | some dates =>
      cases age with
      | none => simp [shouldRefreshCalendar]
      | some a => simp [shouldRefreshCalendar]
  · intro st fr d hw hnone
    rw [isAShareTradingDay, if_neg (not_le.mpr hw)]
    simp only [hnone]
  · intro st fr d dates hw hsome
    rw [isAShareTradingDay, if_neg (not_le.mpr hw)]
    simp only [hsome]

/-- Witness for C6: 2024-03-16 is a Saturday (answered `False` with the state
untouched); on Friday 2024-03-15 a never-loaded state triggers a refresh,
fails open to `True` when the fetch raises, and answers membership when the
fetch delivers dates. -/
theorem a_share_calendar_gate_witness :
    isAShareTradingDay ⟨none, none⟩ .fetchError ⟨2024, 3, 16⟩
      = (false, ⟨none, none⟩) ∧
    shouldRefreshCalendar ⟨none, none⟩ = true ∧
    isAShareTradingDay ⟨none, none⟩ .fetchError ⟨2024, 3, 15⟩
      = (true, ⟨none, none⟩) ∧
    isAShareTradingDay ⟨none, none⟩ (.fetched [⟨2024, 3, 15⟩]) ⟨2024, 3, 15⟩
      = (true, ⟨some [⟨2024, 3, 15⟩], some 0⟩) := by
  refine ⟨a_share_calendar_gate.1 ⟨none, none⟩ .fetchError ⟨2024, 3, 16⟩
      (by decide), (a_share_calendar_gate.2.1 ⟨none, none⟩).mpr (Or.inl rfl),
    ?_, ?_⟩
  · have h := a_share_calendar_gate.2.2.1 ⟨none, none⟩ .fetchError ⟨2024, 3, 15⟩
      (by decide) (by rfl)
    rw [h]
    rfl
  · have h := a_share_calendar_gate.2.2.2 ⟨none, none⟩ (.fetched [⟨2024, 3, 15⟩])
      ⟨2024, 3, 15⟩ [⟨2024, 3, 15⟩] (by decide) (by rfl)
    rw [h]
    rfl

/-! ### C7 -/

/-- C7: when no base tier matches, `0 < days-until-expiry ≤ 10` (expiry being
the 3rd Friday of the current month) and either ratio exceeds 0.8, the
computed signal is true and the reasons mention near-expiry (both the
near-expiry countdown reason and the escalation reason are present). -/
theorem rollover_near_expiry_escalation :
    ∀ (mainVol mainOi nextVol nextOi : ℚ) (today : PyDate)
      (vRat oRat : ℚ) (daysLeft : ℤ),
      vRat = rolloverRat nextVol mainVol →
      oRat = rolloverRat nextOi mainOi →
      daysLeft = (thirdFriday today.year today.month : ℤ) - (today.day : ℤ) →
      ¬(3 / 2 < vRat ∧ 3 / 2 < oRat) →
      ¬(1 < vRat ∧ 1 < oRat) →
      ¬(2 < vRat) →
      0 < daysLeft → daysLeft ≤ 10 →
      (4 / 5 < vRat ∨ 4 / 5 < oRat) →
      (checkSignal mainVol mainOi nextVol nextOi today).1 = true ∧
      RolloverReason.nearExpiry daysLeft today.month
          (thirdFriday today.year today.month)
        ∈ (checkSignal mainVol mainOi nextVol nextOi today).2 ∧
      RolloverReason.nearExpiryBoost
        ∈ (checkSignal mainVol mainOi nextVol nextOi today).2 := by
  intro mainVol mainOi nextVol nextOi today vRat oRat daysLeft hv ho hd
    h1 h2 h3 hd0 hd10 hboost
  subst hv ho hd
  have hresult : checkSignal mainVol mainOi nextVol nextOi today
      = (true,
         [RolloverReason.nearExpiry
            ((thirdFriday today.year today.month : ℤ) - (today.day : ℤ))
            today.month (thirdFriday today.year today.month),
          RolloverReason.nearExpiryBoost]) := by
    rw [checkSignal]
    simp only [if_neg h1, if_neg h2, if_neg h3, if_pos (And.intro hd0 hd10),
      List.nil_append]
    rw [if_pos (And.intro trivial hboost)]
    rfl
  rw [hresult]
  exact ⟨rfl, List.mem_cons_self _ _,
    List.mem_cons_of_mem _ (List.mem_cons_self _ _)⟩

/-- Witness for C7 at the spec's concrete inputs: `volume_ratio = 0.9`,
`oi_ratio = 0.2` (from volumes 9/10 and open interest 2/10) and
`days_to_expiry = 5` (2024-03-10 against the 3rd Friday 2024-03-15). -/
theorem rollover_near_expiry_escalation_witness :
    (checkSignal 10 10 9 2 ⟨2024, 3, 10⟩).1 = true ∧
    RolloverReason.nearExpiry 5 3 15 ∈ (checkSignal 10 10 9 2 ⟨2024, 3, 10⟩).2 ∧
    RolloverReason.nearExpiryBoost ∈ (checkSignal 10 10 9 2 ⟨2024, 3, 10⟩).2 := by
  have hv : rolloverRat 9 10 = 9 / 10 := by
    rw [rolloverRat, if_pos (by norm_num), round4]
    have h : roundHalfEven ((9 : ℚ) / 10 * 10000) = 9000 := by
      rw [roundHalfEven]
      norm_num
    rw [h]
    norm_num
  have ho : rolloverRat 2 10 = 1 / 5 := by
    rw [rolloverRat, if_pos (by norm_num), round4]
    have h : roundHalfEven ((2 : ℚ) / 10 * 10000) = 2000 := by
      rw [roundHalfEven]
      norm_num
    rw [h]
    norm_num
  have hfri : thirdFriday 2024 3 = 15 := by decide
  have h := rollover_near_expiry_escalation 10 10 9 2 ⟨2024, 3, 10⟩
    (rolloverRat 9 10) (rolloverRat 2 10)
    ((thirdFriday 2024 3 : ℤ) - (10 : ℤ)) rfl rfl rfl
    (by rw [hv, ho]; norm_num) (by rw [hv, ho]; norm_num) (by rw [hv]; norm_num)
    (by rw [hfri]; norm_num) (by rw [hfri]; norm_num)
    (by rw [hv]; norm_num)
  refine ⟨h.1, ?_, ?_⟩
  · have h2 := h.2.1
    rw [hfri] at h2
    exact h2
  · exact h.2.2

end Watchdog
